import Mathlib

/-!
Verification of the courts legal-diary seeder (seed.py).

This file gives a shallow embedding of the pure core of the seeder:
the line classifier (parse_case_item, parse_lines), the document cache
(get_cached_html, save_to_cache), the caching fetcher (fetch_html), the
listing extractor (parse_listing) and the idempotent-seeding guard of
main, together with theorems settling the specification claims.

Python regular expressions are embedded as hand-written matchers over
lists of characters, with the same leftmost-first, greedy-with-
backtracking semantics as the source patterns; the character classes
are modelled over their ASCII subsets, which covers all inputs the
claims mention.  Python string truthiness (None and the empty string
are falsy) is modelled explicitly at each use site.
-/

namespace Seed

/-! ### Character classes and Python string helpers -/

/-- ASCII subset of the regex class of digits. -/
def isPyDigit (c : Char) : Bool := '0' ≤ c && c ≤ '9'

/-- ASCII subset of the regex class of whitespace, also the character
set stripped by the Python strip method with no arguments. -/
def isPySpace (c : Char) : Bool :=
  c == ' ' || c == '\t' || c == '\n' || c == '\r' || c == '\x0b' || c == '\x0c'

/-- The regex class of uppercase letters A-Z. -/
def isPyUpper (c : Char) : Bool := 'A' ≤ c && c ≤ 'Z'

/-- Drop the longest suffix whose characters all satisfy p. -/
def dropTrailing (p : Char → Bool) (cs : List Char) : List Char :=
  (cs.reverse.dropWhile p).reverse

/-- Python strip with no arguments: remove leading and trailing whitespace. -/
def pyStrip (cs : List Char) : List Char :=
  dropTrailing isPySpace (cs.dropWhile isPySpace)

/-- Python lstrip with an explicit character set. -/
def pyLStripSet (chars : List Char) (cs : List Char) : List Char :=
  cs.dropWhile (fun c => chars.contains c)

/-- Python rstrip with an explicit character set. -/
def pyRStripSet (chars : List Char) (cs : List Char) : List Char :=
  dropTrailing (fun c => chars.contains c) cs

/-- Python int applied to a string of decimal digits. -/
def digitsToNat (ds : List Char) : Nat :=
  ds.foldl (fun a c => a * 10 + (c.toNat - 48)) 0

/-! ### LIST_NUMBER_PATTERN

The source pattern is one or more digits, captured, followed by one or
more whitespace characters, anchored at the start of the line.  On
success we return the captured digit group and the text after the end
of the whole match (the digits plus the greedily consumed whitespace),
exactly the slice the source takes as the remainder. -/

/-- Embeds LIST_NUMBER_PATTERN.match: digit group and post-match text. -/
def list_number_match (cs : List Char) : Option (List Char × List Char) :=
  let ds := cs.takeWhile isPyDigit
  if ds.isEmpty then none
  else
    let rest := cs.drop ds.length
    let ws := rest.takeWhile isPySpace
    if ws.isEmpty then none
    else some (ds, rest.drop ws.length)

/-! ### CASE_NUMBER_PATTERN

The source pattern is an alternation of two shapes.  Shape (a) is two
to four uppercase letters, an optional D or P, one or more digits, a
slash and exactly four digits.  Shape (b) is four digits, a slash, any
run of uppercase letters and one or more digits.  The Python engine
scans positions left to right and, at each position, tries shape (a)
with all of its backtracking before shape (b); within shape (a) the
letter counter is greedy (four letters first, then three, then two)
and at each letter count the optional D or P is tried present before
absent.  The digit runs never backtrack usefully because a digit can
satisfy neither the following slash nor the letter classes, so they
are modelled greedily and deterministically. -/

/-- Tail of shape (a) after the letters: digits, slash, four digits.
Returns the number of characters consumed. -/
def matchTailA (cs : List Char) : Option Nat :=
  let ds := cs.takeWhile isPyDigit
  if ds.isEmpty then none
  else
    match cs.drop ds.length with
    | '/' :: rest2 =>
        if (rest2.take 4).length = 4 && (rest2.take 4).all isPyDigit then
          some (ds.length + 1 + 4)
        else none
    | _ => none

/-- Shape (a) with a fixed letter count nL: letters, optional D or P
(present tried first), then the tail.  Returns the match length. -/
def matchA_with (nL : Nat) (cs : List Char) : Option Nat :=
  if (cs.take nL).length = nL && (cs.take nL).all isPyUpper then
    match cs.drop nL with
    | c :: rest2 =>
        if c == 'D' || c == 'P' then
          match matchTailA rest2 with
          | some k => some (nL + 1 + k)
          | none =>
              match matchTailA (c :: rest2) with
              | some k => some (nL + k)
              | none => none
        else
          match matchTailA (c :: rest2) with
          | some k => some (nL + k)
          | none => none
    | [] => none
  else none

/-- Shape (b): four digits, a slash, a greedy run of uppercase letters,
one or more digits.  Returns the match length. -/
def matchAltB (cs : List Char) : Option Nat :=
  if (cs.take 4).length = 4 && (cs.take 4).all isPyDigit then
    match cs.drop 4 with
    | '/' :: rest =>
        let us := rest.takeWhile isPyUpper
        let ds := (rest.drop us.length).takeWhile isPyDigit
        if ds.isEmpty then none else some (4 + 1 + us.length + ds.length)
    | _ => none
  else none

/-- All alternatives of CASE_NUMBER_PATTERN at one position, in the
backtracking order of the engine. -/
def matchAtPos (cs : List Char) : Option Nat :=
  match matchA_with 4 cs with
  | some k => some k
  | none =>
    match matchA_with 3 cs with
    | some k => some k
    | none =>
      match matchA_with 2 cs with
      | some k => some k
      | none => matchAltB cs

/-- Embeds CASE_NUMBER_PATTERN.search: leftmost match, returning the
matched text (the captured group is the whole match) and the text
after the match end. -/
def case_number_search : List Char → Option (List Char × List Char)
  | [] => none
  | c :: rest =>
    match matchAtPos (c :: rest) with
    | some k => some ((c :: rest).take k, (c :: rest).drop k)
    | none => case_number_search rest

/-! ### CASE_TYPES and the parties extraction helpers -/

/-- The fixed case-category vocabulary, in source order. -/
def CASE_TYPES : List String :=
  ["Equity", "Personal Injury", "Contract", "Tort", "Family", "Probate",
   "Landlord", "Appeal"]

/-- Split around the first occurrence of pat as a contiguous substring:
returns the text before it and the text after it, or none when pat
does not occur.  The before part is parts[0] of the Python split. -/
def splitOnceSub (pat : List Char) : List Char → Option (List Char × List Char)
  | [] => if pat.isEmpty then some ([], []) else none
  | c :: rest =>
    if pat.isPrefixOf (c :: rest) then some ([], (c :: rest).drop pat.length)
    else
      match splitOnceSub pat rest with
      | some (pre, post) => some (c :: pre, post)
      | none => none

/-- The source loop over CASE_TYPES: the first vocabulary term that
occurs as a substring wins; returns the term and the text before its
first occurrence. -/
def find_case_type : List String → List Char → Option String × Option (List Char)
  | [], _ => (none, none)
  | ct :: rest, after =>
    match splitOnceSub ct.data after with
    | some (pre, _) => (some ct, some pre)
    | none => find_case_type rest after

/-- Parties candidate from the text before the category term: set only
when that text strips to something non-empty, then rstrip tab and
colon and strip again, as in the source. -/
def parties_from_pre (pre : List Char) : Option (List Char) :=
  if (pyStrip pre).isEmpty then none
  else some (pyStrip (pyRStripSet ['\t', ':'] (pyStrip pre)))

/-- parts[0] of the Python re.split on the first colon or tab. -/
def split_colon_tab_first (cs : List Char) : List Char :=
  cs.takeWhile (fun c => !(c == ':' || c == '\t'))

/-! ### parse_case_item -/

/-- The result dict of parse_case_item. -/
structure ParsedItem where
  is_case : Bool
  list_number : Option Nat
  case_number : Option String
  parties : Option String
  case_type : Option String
  raw : String
deriving DecidableEq

/-- Embeds parse_case_item from the source: classify one line and
extract the structured case fields.  The Python truthiness tests on
the parties value (None and the empty string are both falsy) are
modelled explicitly. -/
def parse_case_item (line : String) : ParsedItem :=
  match list_number_match line.data with
  | none => ⟨false, none, none, none, none, line⟩
  | some (ds, rest0) =>
    match case_number_search (pyStrip rest0) with
    | none => ⟨false, some (digitsToNat ds), none, none, none, line⟩
    | some (cn, after0) =>
      let after := pyStrip (pyLStripSet ['\t', ':'] (pyStrip after0))
      let ctp := find_case_type CASE_TYPES after
      let parties0 : Option (List Char) :=
        match ctp.2 with
        | some pre => parties_from_pre pre
        | none => none
      let parties1 : Option (List Char) :=
        if (parties0 = none ∨ parties0 = some []) ∧ after ≠ [] then
          if (pyStrip (split_colon_tab_first after)).isEmpty then parties0
          else some (pyStrip (split_colon_tab_first after))
        else parties0
      let parties2 : Option (List Char) :=
        match parties1 with
        | some p =>
            if p ≠ [] then some (pyStrip (pyRStripSet [':', ',', '\t', ' '] p))
            else some p
        | none => none
      ⟨true, some (digitsToNat ds), some (String.mk cn),
        parties2.map String.mk, ctp.1, line⟩


/-! ### parse_lines -/

/-- Position anchor of a header: either immediately before the case
whose recorded list position is n, or trailing after all cases. -/
inductive Anchor where
  | beforeCase (n : Nat)
  | afterCases
deriving DecidableEq

/-- One element of the headers output of parse_lines. -/
structure HeaderRec where
  text : String
  anchor : Anchor
deriving DecidableEq

/-- One element of the cases output of parse_lines: the raw line as
title and the parsed fields as metadata. -/
structure CaseRec where
  title : String
  item : ParsedItem
deriving DecidableEq

/-- The recorded list position of a case. -/
def caseNum (c : CaseRec) : Nat := c.item.list_number.getD 0

/-- The loop of parse_lines, with the cases, headers and pending
accumulators passed explicitly.  A case flushes the pending buffer as
headers anchored before its list position; the final pending buffer is
flushed with the trailing anchor. -/
def parse_lines_go :
    List String → List CaseRec → List HeaderRec → List String →
      List CaseRec × List HeaderRec
  | [], cases, headers, pending =>
      (cases, headers ++ pending.map (fun t => ⟨t, Anchor.afterCases⟩))
  | line :: rest, cases, headers, pending =>
      if (parse_case_item line).is_case then
        parse_lines_go rest
          (cases ++ [⟨line, parse_case_item line⟩])
          (headers ++ pending.map (fun t =>
            ⟨t, Anchor.beforeCase
                  ((parse_case_item line).list_number.getD (cases.length + 1))⟩))
          []
      else
        parse_lines_go rest cases headers (pending ++ [line])

/-- Embeds parse_lines from the source. -/
def parse_lines (lines : List String) : List CaseRec × List HeaderRec :=
  parse_lines_go lines [] [] []

/-! ### Reconstruction of the original order from the two outputs -/

/-- Texts of the headers anchored immediately before list position n,
in emission order. -/
def headersBefore (hs : List HeaderRec) (n : Nat) : List String :=
  (hs.filter (fun h => h.anchor == Anchor.beforeCase n)).map (fun h => h.text)

/-- Texts of the trailing headers, in emission order. -/
def trailingHeaders (hs : List HeaderRec) : List String :=
  (hs.filter (fun h => h.anchor == Anchor.afterCases)).map (fun h => h.text)

/-- For each case in the given order: its anchored headers then the
case line; after all cases, the trailing headers. -/
def reconstructGo : List CaseRec → List HeaderRec → List String
  | [], hs => trailingHeaders hs
  | c :: cs, hs => headersBefore hs (caseNum c) ++ c.title :: reconstructGo cs hs

/-- The concatenation the header-anchoring claim describes: for every
list position N in ascending order, all headers anchored before N then
case N, followed by all trailing headers. -/
def reconstruct (cs : List CaseRec) (hs : List HeaderRec) : List String :=
  reconstructGo (cs.insertionSort (fun a b => caseNum a ≤ caseNum b)) hs


/-! ### Document cache and fetcher

The cache is one file per fetch key: the file name is a deterministic
hash of the URL with an html extension, the content is the body, and
the age test reads the file modification time.  The file system is
modelled as an association list from path to entry, times as integer
seconds (the source compares a timedelta of hours, modelled as 3600
seconds per hour), and the hash as an explicit function parameter
since the md5 digest itself plays no role in any claim.  The fetcher
threads a network oracle and returns, besides the body or error, the
updated file system and the number of network requests performed. -/

/-- A cache file: document body plus modification time. -/
structure CacheEntry where
  body : String
  mtime : Int
deriving DecidableEq

/-- The cache directory: path to entry. -/
abbrev CacheFS := List (String × CacheEntry)

/-- Embeds url_to_cache_path: deterministic hash of the key plus the
html extension. -/
def url_to_cache_path (hashFn : String → String) (url : String) : String :=
  hashFn url ++ ".html"

/-- Read a file from the modelled file system. -/
def fs_read (fs : CacheFS) (p : String) : Option CacheEntry :=
  match fs with
  | [] => none
  | (q, e) :: rest => if q = p then some e else fs_read rest p

/-- Embeds get_cached_html: none when the file does not exist; when a
positive max age is set, none when the entry is older than that many
hours; the stored body otherwise.  Max age zero never expires. -/
def get_cached_html (hashFn : String → String) (fs : CacheFS) (now : Int)
    (url : String) (max_age_hours : Nat) : Option String :=
  match fs_read fs (url_to_cache_path hashFn url) with
  | none => none
  | some entry =>
      if 0 < max_age_hours then
        if now - entry.mtime > (max_age_hours : Int) * 3600 then none
        else some entry.body
      else some entry.body

/-- The durable write of save_to_cache: overwrite the file for the
key wholesale. -/
def cache_put (hashFn : String → String) (fs : CacheFS) (now : Int)
    (url html : String) : CacheFS :=
  (url_to_cache_path hashFn url, ⟨html, now⟩) ::
    fs.filter (fun kv => kv.1 != url_to_cache_path hashFn url)

/-- Embeds save_to_cache.  The write can fail (full disk, missing
permissions); the source has no handler around the write call, so the
failure is surfaced as an error value.  The writeOk flag stands for
whether the underlying file system accepts the write. -/
def save_to_cache (hashFn : String → String) (writeOk : Bool) (fs : CacheFS)
    (now : Int) (url html : String) : Except Unit CacheFS :=
  if writeOk then Except.ok (cache_put hashFn fs now url html)
  else Except.error ()

/-- Failure modes of the fetcher. -/
inductive FetchError where
  | retrieval
  | storage
deriving DecidableEq

/-- The network path of fetch_html: perform the request (none models
a network failure or non-success status, raised as a retrieval
error), then store best-case to the cache when caching is on; a
storage failure propagates, as in the source, because the save call
has no handler.  The Nat component counts network requests. -/
def fetch_html_net (hashFn : String → String) (net : String → Option String)
    (writeOk : Bool) (fs : CacheFS) (now : Int) (url : String)
    (use_cache : Bool) : Except FetchError String × CacheFS × Nat :=
  match net url with
  | none => (Except.error FetchError.retrieval, fs, 1)
  | some html =>
      if use_cache then
        match save_to_cache hashFn writeOk fs now url html with
        | Except.ok fs2 => (Except.ok html, fs2, 1)
        | Except.error _ => (Except.error FetchError.storage, fs, 1)
      else (Except.ok html, fs, 1)

/-- Embeds fetch_html: when caching is allowed and the cache lookup
yields a truthy body (non-empty string, per the Python truthiness
test in the source), return it with no network request; otherwise go
to the network. -/
def fetch_html (hashFn : String → String) (net : String → Option String)
    (writeOk : Bool) (fs : CacheFS) (now : Int) (url : String)
    (use_cache : Bool) (cache_hours : Nat) :
    Except FetchError String × CacheFS × Nat :=
  match (if use_cache then get_cached_html hashFn fs now url cache_hours
         else none) with
  | some c =>
      if c ≠ "" then (Except.ok c, fs, 0)
      else fetch_html_net hashFn net writeOk fs now url use_cache
  | none => fetch_html_net hashFn net writeOk fs now url use_cache


/-! ### Listing extractor

The listing document is modelled at the node level the source touches:
an optional results container (the element the source selects by id;
absent means the select returns none and the source raises) holding
the rows the clickable-row selector yields, each row with its cell
list and its row-level url attribute.  Cell text stands for the text
content before the strip pass of get_text; the url joining against the
base address is an explicit function parameter, since its resolution
rules play no role in any claim. -/

/-- One table cell: text content and the optional sortable data-text
attribute. -/
structure Cell where
  text : String
  dataText : Option String
deriving DecidableEq

/-- One table row: whether the clickable-row selector matches it, its
cells, and its data-url attribute. -/
structure Row where
  clickable : Bool
  cells : List Cell
  dataUrl : Option String
deriving DecidableEq

/-- A listing document: the results container, when present, with its
rows in document order. -/
structure ListingDoc where
  searchResults : Option (List Row)
deriving DecidableEq

/-- Python strip on a whole string. -/
def pyStripS (s : String) : String := String.mk (pyStrip s.data)

/-- One diary entry from the listing page, as in the source dataclass. -/
structure DiaryEntry where
  date_text : String
  date_sort : String
  venue : String
  type : String
  subtitle : String
  updated_text : String
  updated_sort : String
  url : String
deriving DecidableEq

/-- The entry built from a row with at least five cells, mirroring the
field assignments of the source loop body. -/
def entryOfRow (uj : String → String → String) (base_url : String)
    (tr : Row) : DiaryEntry :=
  { date_text := pyStripS (tr.cells.getD 0 ⟨"", none⟩).text
    date_sort := pyStripS ((tr.cells.getD 0 ⟨"", none⟩).dataText.getD "")
    venue := pyStripS (tr.cells.getD 1 ⟨"", none⟩).text
    type := pyStripS (tr.cells.getD 2 ⟨"", none⟩).text
    subtitle := pyStripS (tr.cells.getD 3 ⟨"", none⟩).text
    updated_text := pyStripS (tr.cells.getD 4 ⟨"", none⟩).text
    updated_sort := pyStripS ((tr.cells.getD 4 ⟨"", none⟩).dataText.getD "")
    url := uj base_url (pyStripS (tr.dataUrl.getD "")) }

/-- The loop body of parse_listing: rows with fewer than five cells
are skipped. -/
def rowEntry (uj : String → String → String) (base_url : String)
    (tr : Row) : Option DiaryEntry :=
  if tr.cells.length < 5 then none else some (entryOfRow uj base_url tr)

/-- Embeds parse_listing: error (the source raises, named
MalformedDocumentError by the spec) when the results container is
absent; otherwise one entry per clickable row with at least five
cells, in document order. -/
def parse_listing (uj : String → String → String) (doc : ListingDoc)
    (base_url : String) : Except Unit (List DiaryEntry) :=
  match doc.searchResults with
  | none => Except.error ()
  | some rows =>
      Except.ok ((rows.filter (fun tr => tr.clickable)).filterMap
        (rowEntry uj base_url))


/-! ### Sync orchestrator: the idempotent-seeding guard of main

The external store is modelled by the two collections the orchestrator
writes: the created lists and the bulk-created items.  The store probe
of main reads all lists; when the result is non-empty the run returns
before any write.  Per-entry processing is modelled with an oracle
that yields the detail lines of an entry, or none when the entry
fails (fetch error, malformed detail, store write failure), in which
case the entry is caught and skipped as in the source loop.  Besides
the final store, the run returns the sequence of write operations it
performed against the store. -/

/-- The list-creation payload of create_list: name and description
derived with the source truthiness fallbacks, plus the entry metadata
and the full ordered header sequence. -/
structure ListPayload where
  name : String
  description : String
  entry : DiaryEntry
  headers : List HeaderRec
deriving DecidableEq

/-- One element of the bulk item-creation payload of create_items. -/
structure ItemPayload where
  list_id : Nat
  title : String
  metadata : ParsedItem
deriving DecidableEq

/-- A write operation against the external store. -/
inductive WriteOp where
  | createList (p : ListPayload)
  | createItems (ps : List ItemPayload)
deriving DecidableEq

/-- The external store contents. -/
structure Store where
  lists : List ListPayload
  items : List ItemPayload
deriving DecidableEq

/-- Embeds the payload construction of create_list. -/
def mkListPayload (e : DiaryEntry) (headers : List HeaderRec) : ListPayload :=
  { name := if e.subtitle ≠ "" then e.subtitle
            else e.venue ++ " - " ++ e.date_text
    description := if e.type ≠ "" then e.type ++ " - " ++ e.venue else e.venue
    entry := e
    headers := headers }

/-- One iteration of the entry loop of main: on failure the entry is
skipped; otherwise the detail lines are classified, one list is
created, and one bulk item write is posted when any cases exist
(create_items posts nothing for an empty case list). -/
def process_entry (detail : DiaryEntry → Option (List String)) :
    Store × List WriteOp → DiaryEntry → Store × List WriteOp
  | (st, ws), e =>
    match detail e with
    | none => (st, ws)
    | some lines =>
        let cases := (parse_lines lines).1
        let headers := (parse_lines lines).2
        let lp := mkListPayload e headers
        let items := cases.map (fun c =>
          ItemPayload.mk st.lists.length c.title c.item)
        if cases.isEmpty then
          (⟨st.lists ++ [lp], st.items⟩, ws ++ [WriteOp.createList lp])
        else
          (⟨st.lists ++ [lp], st.items ++ items⟩,
           ws ++ [WriteOp.createList lp, WriteOp.createItems items])

/-- Embeds the seeding portion of main: probe the store once; when any
prior data exists the run is a no-op; otherwise process every entry. -/
def seed_run (detail : DiaryEntry → Option (List String)) (st : Store)
    (entries : List DiaryEntry) : Store × List WriteOp :=
  if st.lists.isEmpty then entries.foldl (process_entry detail) (st, [])
  else (st, [])


example :
    parse_case_item "1  2023/00078 - V - Murphy Contract  Smith & Co Solicitors" =
      ⟨true, some 1, some "2023/00078", some "- V - Murphy", some "Contract",
        "1  2023/00078 - V - Murphy Contract  Smith & Co Solicitors"⟩ := by decide

example : (parse_case_item "BEFORE THE PRESIDENT").is_case = false := by decide

example : (parse_case_item "3 Motions on Notice").is_case = false := by decide

example : parse_case_item "0 2023/00078" =
    ⟨true, some 0, some "2023/00078", none, none, "0 2023/00078"⟩ := by decide

example :
    parse_lines ["BEFORE MR JUSTICE X", "1  CASE123/2024  Smith v Jones : ABC Solicitors"] =
      ([⟨"1  CASE123/2024  Smith v Jones : ABC Solicitors",
          ⟨true, some 1, some "CASE123/2024", some "Smith v Jones", none,
            "1  CASE123/2024  Smith v Jones : ABC Solicitors"⟩⟩],
       [⟨"BEFORE MR JUSTICE X", Anchor.beforeCase 1⟩]) := by decide

example :
    reconstruct (parse_lines ["2 2023/00001", "H", "1 2023/00002"]).1
        (parse_lines ["2 2023/00001", "H", "1 2023/00002"]).2 =
      ["H", "1 2023/00002", "2 2023/00001"] := by decide

example :
    reconstruct (parse_lines ["Judge X", "1 2023/00010", "Note", "2 2023/00020", "T"]).1
        (parse_lines ["Judge X", "1 2023/00010", "Note", "2 2023/00020", "T"]).2 =
      ["Judge X", "1 2023/00010", "Note", "2 2023/00020", "T"] := by decide

/-! ### Lemmas about parse_lines -/

theorem parse_case_item_isSome (line : String) :
    (parse_case_item line).is_case = true →
    ∃ n, (parse_case_item line).list_number = some n := by
  unfold parse_case_item
  split
  · simp
  · split
    · simp
    · simp

theorem parse_lines_go_append (lines : List String) :
    ∀ cases headers pending,
      parse_lines_go lines cases headers pending =
        (cases ++ (parse_lines_go lines [] [] pending).1,
         headers ++ (parse_lines_go lines [] [] pending).2) := by
  induction lines with
  | nil => intro cases headers pending; simp [parse_lines_go]
  | cons line rest ih =>
    intro cases headers pending
    by_cases hc : (parse_case_item line).is_case
    · obtain ⟨n, hn⟩ := parse_case_item_isSome line hc
      simp only [parse_lines_go, hc, if_true, hn, Option.getD_some,
        List.nil_append, List.length_nil, Nat.zero_add]
      have h1 := ih (cases ++ [CaseRec.mk line (parse_case_item line)])
        (headers ++ pending.map (fun t => HeaderRec.mk t (Anchor.beforeCase n))) []
      have h2 := ih [CaseRec.mk line (parse_case_item line)]
        (pending.map (fun t => HeaderRec.mk t (Anchor.beforeCase n))) []
      rw [h1, h2]
      simp
    · have hc' : (parse_case_item line).is_case = false := by simpa using hc
      simp only [parse_lines_go, hc', Bool.false_eq_true, if_false]
      rw [ih cases headers (pending ++ [line]), ih [] [] (pending ++ [line])]

theorem parse_lines_cons_case (line : String) (rest pending : List String)
    (hc : (parse_case_item line).is_case = true) (n : Nat)
    (hn : (parse_case_item line).list_number = some n) :
    parse_lines_go (line :: rest) [] [] pending =
      (⟨line, parse_case_item line⟩ :: (parse_lines_go rest [] [] []).1,
       pending.map (fun t => ⟨t, Anchor.beforeCase n⟩) ++
         (parse_lines_go rest [] [] []).2) := by
  simp only [parse_lines_go, hc, if_true, hn, Option.getD_some,
    List.nil_append, List.length_nil, Nat.zero_add]
  have h2 := parse_lines_go_append rest [CaseRec.mk line (parse_case_item line)]
    (pending.map (fun t => HeaderRec.mk t (Anchor.beforeCase n))) []
  rw [h2]
  simp

theorem parse_lines_cons_header (line : String) (rest pending : List String)
    (hc : ¬ (parse_case_item line).is_case = true) :
    parse_lines_go (line :: rest) [] [] pending =
      parse_lines_go rest [] [] (pending ++ [line]) := by
  have hc' : (parse_case_item line).is_case = false := by simpa using hc
  simp only [parse_lines_go, hc', Bool.false_eq_true, if_false]

theorem headersBefore_append (a b : List HeaderRec) (n : Nat) :
    headersBefore (a ++ b) n = headersBefore a n ++ headersBefore b n := by
  simp [headersBefore]

theorem trailingHeaders_append (a b : List HeaderRec) :
    trailingHeaders (a ++ b) = trailingHeaders a ++ trailingHeaders b := by
  simp [trailingHeaders]

theorem headersBefore_map_same (pending : List String) (n : Nat) :
    headersBefore (pending.map (fun t => ⟨t, Anchor.beforeCase n⟩)) n = pending := by
  induction pending with
  | nil => rfl
  | cons t ts ih => simpa [headersBefore] using ih

theorem headersBefore_map_other (pending : List String) (n m : Nat) (h : m ≠ n) :
    headersBefore (pending.map (fun t => ⟨t, Anchor.beforeCase n⟩)) m = [] := by
  induction pending with
  | nil => rfl
  | cons t ts ih => simp [headersBefore, h, Ne.symm h]

theorem trailingHeaders_map_bc (pending : List String) (n : Nat) :
    trailingHeaders (pending.map (fun t => ⟨t, Anchor.beforeCase n⟩)) = [] := by
  induction pending with
  | nil => rfl
  | cons t ts ih => simp [trailingHeaders]

theorem trailingHeaders_map_after (pending : List String) :
    trailingHeaders (pending.map (fun t => ⟨t, Anchor.afterCases⟩)) = pending := by
  induction pending with
  | nil => rfl
  | cons t ts ih => simpa [trailingHeaders] using ih

theorem parse_anchor_mem (lines : List String) :
    ∀ pending h, h ∈ (parse_lines_go lines [] [] pending).2 →
      h.anchor = Anchor.afterCases ∨
        ∃ c ∈ (parse_lines_go lines [] [] pending).1,
          h.anchor = Anchor.beforeCase (caseNum c) := by
  induction lines with
  | nil =>
    intro pending h hmem
    left
    simp only [parse_lines_go, List.nil_append] at hmem
    obtain ⟨t, _, rfl⟩ := List.mem_map.mp hmem
    rfl
  | cons line rest ih =>
    intro pending h hmem
    by_cases hc : (parse_case_item line).is_case
    · obtain ⟨n, hn⟩ := parse_case_item_isSome line hc
      rw [parse_lines_cons_case line rest pending hc n hn] at hmem ⊢
      rcases List.mem_append.mp hmem with hin | hin
      · obtain ⟨t, _, rfl⟩ := List.mem_map.mp hin
        right
        refine ⟨⟨line, parse_case_item line⟩, List.mem_cons_self _ _, ?_⟩
        simp [caseNum, hn]
      · rcases ih [] h hin with hafter | ⟨c, hcmem, heq⟩
        · exact Or.inl hafter
        · exact Or.inr ⟨c, List.mem_cons_of_mem _ hcmem, heq⟩
    · rw [parse_lines_cons_header line rest pending hc] at hmem ⊢
      exact ih (pending ++ [line]) h hmem

theorem reconstructGo_drop_left (hs0 hs : List HeaderRec) :
    ∀ cs : List CaseRec,
      (∀ c ∈ cs, headersBefore hs0 (caseNum c) = []) →
      trailingHeaders hs0 = [] →
      reconstructGo cs (hs0 ++ hs) = reconstructGo cs hs := by
  intro cs
  induction cs with
  | nil => intro _ h2; simp [reconstructGo, trailingHeaders_append, h2]
  | cons c cs ih =>
    intro h1 h2
    simp only [reconstructGo, headersBefore_append,
      h1 c (List.mem_cons_self _ _), List.nil_append,
      ih (fun d hd => h1 d (List.mem_cons_of_mem _ hd)) h2]

theorem reconstructGo_parse (lines : List String) :
    ∀ pending,
      ((parse_lines_go lines [] [] pending).1.map caseNum).Pairwise (· < ·) →
      reconstructGo (parse_lines_go lines [] [] pending).1
          (parse_lines_go lines [] [] pending).2 = pending ++ lines := by
  induction lines with
  | nil =>
    intro pending _
    simp [parse_lines_go, reconstructGo, trailingHeaders_map_after]
  | cons line rest ih =>
    intro pending hinc
    by_cases hc : (parse_case_item line).is_case
    · obtain ⟨n, hn⟩ := parse_case_item_isSome line hc
      rw [parse_lines_cons_case line rest pending hc n hn] at hinc ⊢
      have hnum : caseNum ⟨line, parse_case_item line⟩ = n := by
        simp [caseNum, hn]
      rw [List.map_cons, hnum, List.pairwise_cons] at hinc
      obtain ⟨hlt, hpw⟩ := hinc
      have hgt : ∀ c ∈ (parse_lines_go rest [] [] []).1, n < caseNum c := by
        intro c hcmem
        exact hlt (caseNum c) (List.mem_map_of_mem caseNum hcmem)
      have hfilter : headersBefore (parse_lines_go rest [] [] []).2 n = [] := by
        have : ((parse_lines_go rest [] [] []).2.filter
            (fun h => h.anchor == Anchor.beforeCase n)) = [] := by
          refine List.filter_eq_nil_iff.mpr ?_
          intro h hmem
          rcases parse_anchor_mem rest [] h hmem with hafter | ⟨c, hcmem, heq⟩
          · simp [hafter]
          · have : caseNum c ≠ n := Nat.ne_of_gt (hgt c hcmem)
            simp [heq, this]
        simp [headersBefore, this]
      rw [reconstructGo, hnum, headersBefore_append, headersBefore_map_same,
        hfilter, reconstructGo_drop_left]
      · rw [ih [] hpw]
        simp
      · intro c hcmem
        exact headersBefore_map_other pending n (caseNum c)
          (Nat.ne_of_gt (hgt c hcmem))
      · exact trailingHeaders_map_bc pending n
    · rw [parse_lines_cons_header line rest pending hc] at hinc ⊢
      rw [ih (pending ++ [line]) hinc]
      simp

/-! ### Claim theorems for the line classifier -/

/-- C1, counterexample.  The claim quantifies over every input line
sequence, but the anchor of a buffered header is the parsed list
position of the next case, which the input controls: when the printed
positions are not ascending, concatenating in ascending position order
does not reproduce the original line order.  Here the reconstruction
puts the header and the second input line before the first input line. -/
theorem C1_claim_counterexample :
    reconstruct (parse_lines ["2 2023/00001", "H", "1 2023/00002"]).1
        (parse_lines ["2 2023/00001", "H", "1 2023/00002"]).2 ≠
      ["2 2023/00001", "H", "1 2023/00002"] := by decide

/-- C1, amended.  For every input line sequence whose cases carry
strictly increasing recorded list positions, the classifier anchors
each header buffered since the previous case before the next case in
buffered order, anchors the headers pending at the end as trailing,
and concatenating, for every position N in ascending order, the
headers anchored before N followed by case N, then the trailing
headers, reproduces exactly the original line sequence. -/
theorem C1_header_anchoring (lines : List String)
    (hinc : ((parse_lines lines).1.map caseNum).Pairwise (· < ·)) :
    reconstruct (parse_lines lines).1 (parse_lines lines).2 = lines := by
  have hsorted : (parse_lines lines).1.Sorted (fun a b => caseNum a ≤ caseNum b) := by
    exact (List.pairwise_map.mp hinc).imp (fun h => le_of_lt h)
  unfold reconstruct
  rw [hsorted.insertionSort_eq]
  exact reconstructGo_parse lines [] hinc

/-- Witness for C1_header_anchoring at a concrete five-line input. -/
theorem C1_header_anchoring_witness :
    ((parse_lines ["Judge X", "1 2023/00010", "Note", "2 2023/00020", "T"]).1.map
        caseNum).Pairwise (· < ·) ∧
    reconstruct (parse_lines ["Judge X", "1 2023/00010", "Note", "2 2023/00020", "T"]).1
        (parse_lines ["Judge X", "1 2023/00010", "Note", "2 2023/00020", "T"]).2 =
      ["Judge X", "1 2023/00010", "Note", "2 2023/00020", "T"] :=
  ⟨by decide, C1_header_anchoring _ (by decide)⟩

/-- C2.  Classification is a total function and never signals an
error; a line lacking a leading digits-plus-whitespace token, and a
line whose post-token remainder contains no token of either
case-reference shape, are both classified as non-cases (headers). -/
theorem C2_header_fallback (line : String)
    (h : list_number_match line.data = none ∨
      ∀ ds rest, list_number_match line.data = some (ds, rest) →
        case_number_search (pyStrip rest) = none) :
    (parse_case_item line).is_case = false := by
  rcases hm : list_number_match line.data with _ | ⟨ds, rest⟩
  · simp [parse_case_item, hm]
  · rcases h with h | h
    · rw [hm] at h; exact absurd h (by simp)
    · simp [parse_case_item, hm, h ds rest hm]

/-- Witness for C2_header_fallback on a line with no leading numeric
token. -/
theorem C2_header_fallback_witness :
    list_number_match ("BEFORE THE PRESIDENT").data = none ∧
    (parse_case_item "BEFORE THE PRESIDENT").is_case = false :=
  ⟨by decide, C2_header_fallback _ (Or.inl (by decide))⟩

/-- C3, counterexample.  On the scenario line the source keeps the
text before the matched category term as the parties field after
trimming, and that text still carries the connective: the parties
field is not the bare name Murphy.  PARTIES_PATTERN is defined in the
source but never applied, so the connective is not stripped. -/
theorem C3_scenario_counterexample :
    (parse_case_item
        "1  2023/00078 - V - Murphy Contract  Smith & Co Solicitors").parties ≠
      some "Murphy" := by decide

/-- C3, amended.  Classifying the single scenario line yields exactly
one CaseRecord and no headers, with list position 1, case reference
2023/00078, category Contract, and parties equal to the trimmed text
before the category term including the connective. -/
theorem C3_scenario_parse :
    parse_lines ["1  2023/00078 - V - Murphy Contract  Smith & Co Solicitors"] =
      ([⟨"1  2023/00078 - V - Murphy Contract  Smith & Co Solicitors",
          ⟨true, some 1, some "2023/00078", some "- V - Murphy", some "Contract",
            "1  2023/00078 - V - Murphy Contract  Smith & Co Solicitors"⟩⟩],
        []) := by decide

/-- C9, counterexample.  The leading token of one or more digits may
consist of zeros, and the source records its numeric value unchanged:
this line becomes a case whose recorded list position is zero, which
is not strictly positive. -/
theorem C9_positive_counterexample :
    (parse_case_item "0 2023/00078").is_case = true ∧
    (parse_case_item "0 2023/00078").list_number = some 0 := by decide

/-- C9, amended.  For every line the classifier turns into a case the
recorded list position is the natural-number value of the leading
digit token; it is not guaranteed strictly positive, since a token of
zeros yields zero. -/
theorem C9_list_number_value (line : String)
    (h : (parse_case_item line).is_case = true) :
    ∃ ds rest, list_number_match line.data = some (ds, rest) ∧
      (parse_case_item line).list_number = some (digitsToNat ds) := by
  rcases hm : list_number_match line.data with _ | ⟨ds, rest⟩
  · simp [parse_case_item, hm] at h
  · refine ⟨ds, rest, rfl, ?_⟩
    rcases hs : case_number_search (pyStrip rest) with _ | ⟨cn, after0⟩
    · simp [parse_case_item, hm, hs]
    · simp [parse_case_item, hm, hs]

/-- Witness for C9_list_number_value at a concrete case line. -/
theorem C9_list_number_value_witness :
    (parse_case_item "7 2023/00001 Foo").is_case = true ∧
    ∃ ds rest, list_number_match ("7 2023/00001 Foo").data = some (ds, rest) ∧
      (parse_case_item "7 2023/00001 Foo").list_number = some (digitsToNat ds) :=
  ⟨by decide, C9_list_number_value _ (by decide)⟩

example :
    fetch_html (fun s => s) (fun _ => some "fresh") true
      [("u.html", ⟨"old", 0⟩)] 10 "u" true 0 = (Except.ok "old", [("u.html", ⟨"old", 0⟩)], 0) :=
  rfl

/-! ### Claim theorems for the cache and fetcher -/

/-- C5.  Cache round trip: after put, a get with max age zero returns
the stored body whatever the age; with a positive max age, a get
within the age bound returns the body and a get past the bound
returns absent. -/
theorem C5_cache_roundtrip (hashFn : String → String) (fs : CacheFS)
    (now t t1 t2 : Int) (k v : String) (maxAge : Nat)
    (hpos : 0 < maxAge)
    (hyoung : t1 - now ≤ (maxAge : Int) * 3600)
    (hpast : t2 - now > (maxAge : Int) * 3600) :
    get_cached_html hashFn (cache_put hashFn fs now k v) t k 0 = some v ∧
    get_cached_html hashFn (cache_put hashFn fs now k v) t1 k maxAge = some v ∧
    get_cached_html hashFn (cache_put hashFn fs now k v) t2 k maxAge = none := by
  have hread : fs_read (cache_put hashFn fs now k v)
      (url_to_cache_path hashFn k) = some ⟨v, now⟩ := by
    simp [cache_put, fs_read]
  refine ⟨?_, ?_, ?_⟩
  · simp [get_cached_html, hread]
  · simp [get_cached_html, hread, hpos]
    omega
  · simp [get_cached_html, hread, hpos]
    omega

/-- Witness for C5_cache_roundtrip at concrete times and a one-hour
max age. -/
theorem C5_cache_roundtrip_witness :
    0 < 1 ∧ ((1000 : Int) - 0 ≤ (1 : Int) * 3600) ∧ ((4000 : Int) - 0 > (1 : Int) * 3600) ∧
    (get_cached_html (fun s => s) (cache_put (fun s => s) [] 0 "u" "b") 99999 "u" 0 = some "b" ∧
     get_cached_html (fun s => s) (cache_put (fun s => s) [] 0 "u" "b") 1000 "u" 1 = some "b" ∧
     get_cached_html (fun s => s) (cache_put (fun s => s) [] 0 "u" "b") 4000 "u" 1 = none) :=
  ⟨by decide, by decide, by decide,
    C5_cache_roundtrip (fun s => s) [] 0 99999 1000 4000 "u" "b" 1
      (by decide) (by decide) (by decide)⟩

/-- C4, counterexample.  An unexpired cache entry exists for the key
(the lookup returns it), caching is allowed, and yet the fetch
performs a network request, because the stored body is the empty
string and the hit test in the source is truthiness of the body. -/
theorem C4_cache_hit_counterexample :
    get_cached_html (fun s => s) [("u.html", ⟨"", 0⟩)] 0 "u" 0 = some "" ∧
    (fetch_html (fun s => s) (fun _ => some "fresh") true
        [("u.html", ⟨"", 0⟩)] 0 "u" true 0).2.2 = 1 := by decide

/-- C4, amended.  For every key whose cache lookup returns a
non-empty body, with caching allowed, fetch returns that cached body,
leaves the file system unchanged and performs zero network requests. -/
theorem C4_cache_hit_no_network (hashFn : String → String)
    (net : String → Option String) (writeOk : Bool) (fs : CacheFS)
    (now : Int) (url : String) (cache_hours : Nat) (c : String)
    (hhit : get_cached_html hashFn fs now url cache_hours = some c)
    (hne : c ≠ "") :
    fetch_html hashFn net writeOk fs now url true cache_hours =
      (Except.ok c, fs, 0) := by
  simp [fetch_html, hhit, hne]

/-- Witness for C4_cache_hit_no_network on a one-entry cache. -/
theorem C4_cache_hit_no_network_witness :
    get_cached_html (fun s => s) [("u.html", ⟨"body", 0⟩)] 0 "u" 0 = some "body" ∧
    fetch_html (fun s => s) (fun _ => some "fresh") true
        [("u.html", ⟨"body", 0⟩)] 0 "u" true 0 =
      (Except.ok "body", [("u.html", ⟨"body", 0⟩)], 0) :=
  ⟨by decide,
    C4_cache_hit_no_network (fun s => s) (fun _ => some "fresh") true
      [("u.html", ⟨"body", 0⟩)] 0 "u" 0 "body" (by decide) (by decide)⟩

/-- C6, counterexample.  The network retrieval succeeds, the cache
storage write fails, and fetch does not return the retrieved body: it
propagates the storage error, because the save call inside fetch_html
has no exception handler in the source. -/
theorem C6_storage_failure_counterexample :
    ((fun _ => some "B") : String → Option String) "u" = some "B" ∧
    fetch_html (fun s => s) (fun _ => some "B") false [] 0 "u" true 0 =
      (Except.error FetchError.storage, [], 1) := ⟨rfl, rfl⟩

/-- C6, amended.  When caching is allowed, the cache does not
short-circuit (miss, or an entry with falsy empty body), the network
retrieval succeeds and the storage write fails, fetch propagates the
storage error to the caller instead of returning the retrieved body. -/
theorem C6_storage_failure_propagates (hashFn : String → String)
    (net : String → Option String) (fs : CacheFS) (now : Int)
    (url html : String) (cache_hours : Nat)
    (hmiss : get_cached_html hashFn fs now url cache_hours = none ∨
      get_cached_html hashFn fs now url cache_hours = some "")
    (hnet : net url = some html) :
    fetch_html hashFn net false fs now url true cache_hours =
      (Except.error FetchError.storage, fs, 1) := by
  rcases hmiss with hmiss | hmiss <;>
    simp [fetch_html, fetch_html_net, save_to_cache, hmiss, hnet]

/-- Witness for C6_storage_failure_propagates on an empty cache. -/
theorem C6_storage_failure_propagates_witness :
    get_cached_html (fun s => s) [] 0 "u" 0 = none ∧
    ((fun _ => some "B") : String → Option String) "u" = some "B" ∧
    fetch_html (fun s => s) (fun _ => some "B") false [] 0 "u" true 0 =
      (Except.error FetchError.storage, [], 1) :=
  ⟨by decide, by decide,
    C6_storage_failure_propagates (fun s => s) (fun _ => some "B") [] 0 "u" "B" 0
      (Or.inl (by decide)) (by decide)⟩

/-- C10.  When the stored cache body for the key is the empty string,
a fetch with caching allowed goes to the network anyway (exactly one
network request), even though an unexpired entry exists: the hit test
is truthiness of the returned body, not presence of the entry. -/
theorem C10_empty_body_refetch (hashFn : String → String)
    (net : String → Option String) (writeOk : Bool) (fs : CacheFS)
    (now : Int) (url : String) (cache_hours : Nat)
    (hempty : get_cached_html hashFn fs now url cache_hours = some "") :
    (fetch_html hashFn net writeOk fs now url true cache_hours).2.2 = 1 := by
  simp only [fetch_html, hempty, if_true, ne_eq, not_true_eq_false, if_false,
    reduceIte]
  rcases hnet : net url with _ | html
  · simp [fetch_html_net, hnet]
  · rcases hw : save_to_cache hashFn writeOk fs now url html with _ | fs2 <;>
      simp [fetch_html_net, hnet, hw]

/-- Witness for C10_empty_body_refetch on a one-entry cache holding
an empty body. -/
theorem C10_empty_body_refetch_witness :
    get_cached_html (fun s => s) [("u.html", ⟨"", 0⟩)] 0 "u" 24 = some "" ∧
    (fetch_html (fun s => s) (fun _ => some "fresh") true
        [("u.html", ⟨"", 0⟩)] 0 "u" true 24).2.2 = 1 :=
  ⟨by decide,
    C10_empty_body_refetch (fun s => s) (fun _ => some "fresh") true
      [("u.html", ⟨"", 0⟩)] 0 "u" 24 (by decide)⟩

theorem rowEntry_filterMap (uj : String → String → String) (base_url : String) :
    ∀ rows : List Row,
      rows.filterMap (rowEntry uj base_url) =
        (rows.filter (fun tr => decide (5 ≤ tr.cells.length))).map
          (entryOfRow uj base_url) := by
  intro rows
  induction rows with
  | nil => rfl
  | cons tr rest ih =>
    by_cases h : tr.cells.length < 5
    · have h5 : ¬ 5 ≤ tr.cells.length := by omega
      simp [rowEntry, h, h5, ih]
    · have h5 : 5 ≤ tr.cells.length := by omega
      simp [rowEntry, h, h5, ih]

/-- C7.  Extraction fails if and only if the results container is
absent; otherwise it returns exactly one entry per clickable row with
at least five cells, silently skipping shorter rows, in document row
order. -/
theorem C7_parse_listing_spec (uj : String → String → String)
    (doc : ListingDoc) (base_url : String) :
    (parse_listing uj doc base_url = Except.error () ↔
      doc.searchResults = none) ∧
    (∀ rows, doc.searchResults = some rows →
      parse_listing uj doc base_url =
        Except.ok (((rows.filter (fun tr => tr.clickable)).filter
            (fun tr => decide (5 ≤ tr.cells.length))).map
          (entryOfRow uj base_url))) := by
  constructor
  · rcases hdoc : doc.searchResults with _ | rows
    · simp [parse_listing, hdoc]
    · simp [parse_listing, hdoc]
  · intro rows hdoc
    simp [parse_listing, hdoc, rowEntry_filterMap]

/-- Witness for C7_parse_listing_spec: a concrete document holding a
clickable complete row, a clickable short row and a non-clickable row
extracts exactly the complete clickable row. -/
theorem C7_parse_listing_spec_witness :
    (ListingDoc.mk (some
        [⟨true, [⟨"d", some "20240101"⟩, ⟨"v", none⟩, ⟨"t", none⟩, ⟨"s", none⟩,
          ⟨"u", some "20240102"⟩], some "detail"⟩,
         ⟨true, [⟨"d", none⟩, ⟨"v", none⟩], none⟩,
         ⟨false, [⟨"d", none⟩, ⟨"v", none⟩, ⟨"t", none⟩, ⟨"s", none⟩,
          ⟨"u", none⟩], none⟩])).searchResults =
      some
        [⟨true, [⟨"d", some "20240101"⟩, ⟨"v", none⟩, ⟨"t", none⟩, ⟨"s", none⟩,
          ⟨"u", some "20240102"⟩], some "detail"⟩,
         ⟨true, [⟨"d", none⟩, ⟨"v", none⟩], none⟩,
         ⟨false, [⟨"d", none⟩, ⟨"v", none⟩, ⟨"t", none⟩, ⟨"s", none⟩,
          ⟨"u", none⟩], none⟩] ∧
    parse_listing (fun _ u => u)
        (ListingDoc.mk (some
          [⟨true, [⟨"d", some "20240101"⟩, ⟨"v", none⟩, ⟨"t", none⟩, ⟨"s", none⟩,
            ⟨"u", some "20240102"⟩], some "detail"⟩,
           ⟨true, [⟨"d", none⟩, ⟨"v", none⟩], none⟩,
           ⟨false, [⟨"d", none⟩, ⟨"v", none⟩, ⟨"t", none⟩, ⟨"s", none⟩,
            ⟨"u", none⟩], none⟩])) "base" =
      Except.ok
        ((([⟨true, [⟨"d", some "20240101"⟩, ⟨"v", none⟩, ⟨"t", none⟩, ⟨"s", none⟩,
            ⟨"u", some "20240102"⟩], some "detail"⟩,
           (⟨true, [⟨"d", none⟩, ⟨"v", none⟩], none⟩ : Row),
           ⟨false, [⟨"d", none⟩, ⟨"v", none⟩, ⟨"t", none⟩, ⟨"s", none⟩,
            ⟨"u", none⟩], none⟩].filter (fun tr => tr.clickable)).filter
            (fun tr => decide (5 ≤ tr.cells.length))).map
          (entryOfRow (fun _ u => u) "base")) :=
  ⟨rfl, (C7_parse_listing_spec (fun _ u => u) _ "base").2 _ rfl⟩

theorem process_entry_lists_le (detail : DiaryEntry → Option (List String))
    (st : Store) (ws : List WriteOp) (e : DiaryEntry) :
    st.lists.length ≤ (process_entry detail (st, ws) e).1.lists.length := by
  rcases hd : detail e with _ | lines
  · simp [process_entry, hd]
  · by_cases hc : ((parse_lines lines).1).isEmpty <;>
      simp [process_entry, hd, hc]

theorem foldl_process_lists_le (detail : DiaryEntry → Option (List String)) :
    ∀ (entries : List DiaryEntry) (st : Store) (ws : List WriteOp),
      st.lists.length ≤
        (entries.foldl (process_entry detail) (st, ws)).1.lists.length := by
  intro entries
  induction entries with
  | nil => intro st ws; simp
  | cons e rest ih =>
    intro st ws
    calc st.lists.length ≤ (process_entry detail (st, ws) e).1.lists.length :=
          process_entry_lists_le detail st ws e
      _ ≤ _ := by
          rw [List.foldl_cons]
          rcases hpe : process_entry detail (st, ws) e with ⟨st1, ws1⟩
          exact ih st1 ws1

theorem foldl_process_fixed (detail : DiaryEntry → Option (List String)) :
    ∀ (entries : List DiaryEntry) (st : Store) (ws : List WriteOp),
      (entries.foldl (process_entry detail) (st, ws)).1.lists.length =
        st.lists.length →
      entries.foldl (process_entry detail) (st, ws) = (st, ws) := by
  intro entries
  induction entries with
  | nil => intro st ws _; rfl
  | cons e rest ih =>
    intro st ws hlen
    rw [List.foldl_cons] at hlen ⊢
    have hmid : (process_entry detail (st, ws) e).1.lists.length =
        st.lists.length := by
      have ha := process_entry_lists_le detail st ws e
      have hb := foldl_process_lists_le detail rest
        (process_entry detail (st, ws) e).1 (process_entry detail (st, ws) e).2
      rw [Prod.mk.eta] at hb
      omega
    have hstep : process_entry detail (st, ws) e = (st, ws) := by
      rcases hd : detail e with _ | lines
      · simp [process_entry, hd]
      · exfalso
        have hgrow : (process_entry detail (st, ws) e).1.lists.length =
            st.lists.length + 1 := by
          by_cases hc : ((parse_lines lines).1).isEmpty <;>
            simp [process_entry, hd, hc]
        omega
    rw [hstep] at hlen ⊢
    exact ih st ws hlen

theorem seed_run_second_noop (detail : DiaryEntry → Option (List String))
    (st : Store) (entries : List DiaryEntry) :
    seed_run detail (seed_run detail st entries).1 entries =
      ((seed_run detail st entries).1, []) := by
  by_cases hempty : st.lists.isEmpty
  · rcases hrun : entries.foldl (process_entry detail) (st, []) with ⟨st1, ws1⟩
    have hfirst : seed_run detail st entries = (st1, ws1) := by
      simp [seed_run, hempty, hrun]
    rw [hfirst]
    by_cases h1 : st1.lists.isEmpty
    · have hstnil : st.lists = [] := List.isEmpty_iff.mp hempty
      have hst1nil : st1.lists = [] := List.isEmpty_iff.mp h1
      have hfix := foldl_process_fixed detail entries st []
        (by rw [hrun]; simp [hstnil, hst1nil])
      rw [hrun] at hfix
      have hst : st1 = st := congrArg Prod.fst hfix
      have hws : ws1 = [] := congrArg Prod.snd hfix
      simp only [seed_run, h1, if_true, hst, hws, hrun]
      split <;> rfl
    · simp [seed_run, h1]
  · simp [seed_run, hempty]

/-- C8.  When the initial store-wide probe finds any prior data the
run performs no writes and leaves the store untouched; and running the
orchestrator a second time against the store a first run left behind
changes nothing and performs no writes, whatever the first run did —
in particular after a first run that populated an empty store. -/
theorem C8_seed_idempotent (detail : DiaryEntry → Option (List String))
    (st : Store) (entries : List DiaryEntry) :
    (st.lists ≠ [] → seed_run detail st entries = (st, [])) ∧
    seed_run detail (seed_run detail st entries).1 entries =
      ((seed_run detail st entries).1, []) := by
  constructor
  · intro hdata
    have hne : ¬ st.lists.isEmpty := by
      simpa [List.isEmpty_iff] using hdata
    simp [seed_run, hne]
  · exact seed_run_second_noop detail st entries

/-- Witness for C8_seed_idempotent on a store already holding one
list: both runs are no-ops. -/
theorem C8_seed_idempotent_witness :
    (Store.mk [mkListPayload ⟨"d", "", "v", "t", "s", "u", "us", "url"⟩ []] []).lists ≠ [] ∧
    (seed_run (fun _ => none)
        (Store.mk [mkListPayload ⟨"d", "", "v", "t", "s", "u", "us", "url"⟩ []] [])
        [⟨"d2", "", "v2", "t2", "s2", "u2", "us2", "url2"⟩] =
      (Store.mk [mkListPayload ⟨"d", "", "v", "t", "s", "u", "us", "url"⟩ []] [], []) ∧
     seed_run (fun _ => none)
        (seed_run (fun _ => none)
          (Store.mk [mkListPayload ⟨"d", "", "v", "t", "s", "u", "us", "url"⟩ []] [])
          [⟨"d2", "", "v2", "t2", "s2", "u2", "us2", "url2"⟩]).1
        [⟨"d2", "", "v2", "t2", "s2", "u2", "us2", "url2"⟩] =
      ((seed_run (fun _ => none)
          (Store.mk [mkListPayload ⟨"d", "", "v", "t", "s", "u", "us", "url"⟩ []] [])
          [⟨"d2", "", "v2", "t2", "s2", "u2", "us2", "url2"⟩]).1, [])) :=
  ⟨by decide,
    (C8_seed_idempotent (fun _ => none)
      (Store.mk [mkListPayload ⟨"d", "", "v", "t", "s", "u", "us", "url"⟩ []] [])
      [⟨"d2", "", "v2", "t2", "s2", "u2", "us2", "url2"⟩]).1 (by decide),
    (C8_seed_idempotent (fun _ => none)
      (Store.mk [mkListPayload ⟨"d", "", "v", "t", "s", "u", "us", "url"⟩ []] [])
      [⟨"d2", "", "v2", "t2", "s2", "u2", "us2", "url2"⟩]).2⟩

end Seed
